import Mathlib

/-!
Shallow embedding of the WFAP credit-negotiation frontend core.

The definitions below are translated from the repository source:
* Chatbot.js — the fallback field extractor (parseLoanRequestFallback), the
  language-model interpreter wrapper (parseLoanRequestWithOllama) and the
  submission gate in handleSubmit;
* OffersGrid.js — the per-offer negotiation handler (handleNegotiate) and its
  single scalar busy flag;
* App.js — the best-offers ranking pipeline (filter, sort, slice, recommended
  annotation).

JavaScript numbers are modelled as exact rationals, strings as Lean strings
(lists of characters), nullable values as Option, and each regular expression
used by the source as a hand-written matcher with the same leftmost-match,
greedy-with-backtracking semantics the source relies on.  The JS whitespace
class is modelled on its ASCII members plus NBSP, and case-insensitive
matching lowers ASCII letters, which covers every character class the source
patterns can meet on the inputs of interest.
-/

namespace WFAP

/-- ASCII lower-casing, the effect of the case-insensitive regex flag on the
character ranges used by the source patterns. -/
def lowerChar (c : Char) : Char :=
  if 'A' ≤ c && c ≤ 'Z' then Char.ofNat (c.toNat + 32) else c

/-- Digit class of the regexes (ASCII digits). -/
def isDigitChar (c : Char) : Bool :=
  '0' ≤ c && c ≤ '9'

/-- Whitespace class of the regexes and of String.prototype.trim. -/
def isSpaceChar (c : Char) : Bool :=
  c = ' ' || c = '\t' || c = '\n' || c = '\r' ||
    c.toNat = 11 || c.toNat = 12 || c.toNat = 160

/-- Line terminators, which the dot of a regex does not match. -/
def isLineTermChar (c : Char) : Bool :=
  c = '\n' || c = '\r' || c.toNat = 8232 || c.toNat = 8233

/-- Case-insensitive prefix test: does the text start with the given word. -/
def startsWithCI : List Char → List Char → Bool
  | [], _ => true
  | _ :: _, [] => false
  | p :: ps, c :: cs => lowerChar p = lowerChar c && startsWithCI ps cs

/-- Greedy run of comma-separated thousand groups, the piece matched by a
repeated group of a comma and three digits.  Returns the matched characters
and the rest of the input. -/
def commaGroups : List Char → List Char × List Char
  | ',' :: a :: b :: c :: rest =>
    if isDigitChar a && isDigitChar b && isDigitChar c then
      let (w, r) := commaGroups rest
      (',' :: a :: b :: c :: w, r)
    else ([], ',' :: a :: b :: c :: rest)
  | cs => ([], cs)

/-- Optional two-digit decimal part of the monetary numeral pattern. -/
def decimalPart : List Char → List Char
  | '.' :: a :: b :: _ => if isDigitChar a && isDigitChar b then ['.', a, b] else []
  | _ => []

/-- The numeral of the amount pattern: one or more digits, then optional
thousands groups, then an optional two-digit decimal part.  Returns the
matched characters when the pattern matches at the head of the input. -/
def numAt (cs : List Char) : Option (List Char) :=
  let ds := cs.takeWhile isDigitChar
  if ds.isEmpty then none
  else
    let rest := cs.drop ds.length
    let (cg, rest2) := commaGroups rest
    some (ds ++ cg ++ decimalPart rest2)

/-- The monetary pattern of the source (optional dollar sign, then the
numeral, the numeral being the single capture group).  Returns the whole
match and the capture group when it matches at the head of the input. -/
def amountAt (cs : List Char) : Option (List Char × List Char) :=
  match cs with
  | '$' :: rest => (numAt rest).map (fun g => ('$' :: g, g))
  | _ => (numAt cs).map (fun g => (g, g))

/-- The duration pattern of the source: captured digits, optional whitespace,
then the word month or year, case-insensitively. -/
def durationAt (cs : List Char) : Option (List Char × List Char) :=
  let ds := cs.takeWhile isDigitChar
  if ds.isEmpty then none
  else
    let rest := cs.drop ds.length
    let sp := rest.takeWhile isSpaceChar
    let rest2 := rest.drop sp.length
    if startsWithCI "month".data rest2 then
      some (ds ++ sp ++ rest2.take 5, ds)
    else if startsWithCI "year".data rest2 then
      some (ds ++ sp ++ rest2.take 4, ds)
    else none

/-- Tail of the income pattern after the optional connector word: optional
whitespace, optional dollar sign, then the captured numeral.  Returns the
consumed characters and the capture group. -/
def incomeTail (cs : List Char) : Option (List Char × List Char) :=
  let sp := cs.takeWhile isSpaceChar
  let r := cs.drop sp.length
  (amountAt r).map (fun wg => (sp ++ wg.1, wg.2))

/-- One alternative of the optional connector word of the income pattern,
followed by the tail; fails back to the next alternative like the regex
engine does. -/
def incomeConnWord (w : List Char) (cs : List Char) : Option (List Char × List Char) :=
  if startsWithCI w cs then
    (incomeTail (cs.drop w.length)).map (fun tg => (cs.take w.length ++ tg.1, tg.2))
  else none

/-- The optional connector of the income pattern, trying the alternatives in
source order and finally the empty option. -/
def incomeConn (cs : List Char) : Option (List Char × List Char) :=
  incomeConnWord "of".data cs <|> incomeConnWord "is".data cs <|>
    incomeConnWord "will be".data cs <|> incomeConnWord "about".data cs <|>
      incomeTail cs

/-- One keyword alternative of the income pattern followed by the rest of the
pattern. -/
def incomeKeyword (k : List Char) (cs : List Char) : Option (List Char × List Char) :=
  if startsWithCI k cs then
    let rest := cs.drop k.length
    let sp := rest.takeWhile isSpaceChar
    (incomeConn (rest.drop sp.length)).map (fun tg => (cs.take k.length ++ sp ++ tg.1, tg.2))
  else none

/-- The income pattern of the source: one of the keywords income, revenue,
earnings, earning, profit, expected (the alternation order of the source,
with the optional plural tried greedily first), then optional whitespace, the
optional connector, optional whitespace, an optional dollar sign and the
captured numeral. -/
def incomeAt (cs : List Char) : Option (List Char × List Char) :=
  incomeKeyword "income".data cs <|> incomeKeyword "revenue".data cs <|>
    incomeKeyword "earnings".data cs <|> incomeKeyword "earning".data cs <|>
      incomeKeyword "profit".data cs <|> incomeKeyword "expected".data cs

/-- Leftmost-match scan: try the matcher at each position from the left and
return the first success, the search order of an unanchored regex. -/
def scanFirst {α : Type} (m : List Char → Option α) : List Char → Option α
  | [] => m []
  | c :: cs => m (c :: cs) <|> scanFirst m cs

/-- String.prototype.match for a one-group pattern: the result array holds
the whole match at index zero and the capture group at index one; any higher
index is undefined. -/
def jsMatch (m : List Char → Option (List Char × List Char)) (cs : List Char) :
    Option (List (List Char)) :=
  scanFirst (fun t => (m t).map (fun wg => [wg.1, wg.2])) cs

/-- Truthy access to an index of a match result, as in the guards of the
source: the match must exist, the index must be in range, and the entry must
be a non-empty string. -/
def matchIndexTruthy (m : Option (List (List Char))) (i : ℕ) : Option (List Char) :=
  match m with
  | none => none
  | some arr =>
    match arr.get? i with
    | some g => if g.isEmpty then none else some g
    | none => none

/-- Digit run to a natural number. -/
def digitsToNat (ds : List Char) : ℕ :=
  ds.foldl (fun acc c => 10 * acc + (c.toNat - '0'.toNat)) 0

/-- parseFloat of a captured numeral after its commas are removed, for the
shapes the numeral pattern can produce (digits with an optional two-digit
decimal part). -/
def parseNumQ (g : List Char) : ℚ :=
  let h := g.filter (fun c => c ≠ ',')
  let ip := h.takeWhile isDigitChar
  let rest := h.drop ip.length
  match rest with
  | '.' :: fr => (digitsToNat ip : ℚ) + (digitsToNat fr : ℚ) / 100
  | _ => (digitsToNat ip : ℚ)

/-- Replacement of the first match of a pattern by the empty string, the
behaviour of String.prototype.replace with a non-global regex. -/
def removeFirst (m : List Char → Option (List Char × List Char)) : List Char → List Char
  | [] => []
  | c :: cs =>
    match m (c :: cs) with
    | some wg => (c :: cs).drop wg.1.length
    | none => c :: removeFirst m cs

/-- Case-insensitive literal pattern (no capture group). -/
def literalCI (w : List Char) (cs : List Char) : Option (List Char × List Char) :=
  if startsWithCI w cs then some (cs.take w.length, []) else none

/-- String.prototype.trim. -/
def trimList (cs : List Char) : List Char :=
  ((cs.dropWhile isSpaceChar).reverse.dropWhile isSpaceChar).reverse

/-- Removal of an anchored leading word followed by at least one whitespace
character, the effect of replacing an anchored word-and-whitespace pattern by
the empty string. -/
def stripLeadCI (w : List Char) (cs : List Char) : List Char :=
  if startsWithCI w cs then
    let rest := cs.drop w.length
    let sp := rest.takeWhile isSpaceChar
    if sp.isEmpty then cs else rest.drop sp.length
  else cs

/-- Greedy dot-plus: the maximal non-empty run of characters that are not
line terminators. -/
def dotPlus (cs : List Char) : Option (List Char) :=
  let g := cs.takeWhile (fun c => !(isLineTermChar c))
  if g.isEmpty then none else some g

/-- Mandatory whitespace then the captured dot-plus group of the secondary
purpose patterns, with the greedy backtracking of the regex engine: consume
as much of the whitespace run as possible, at least one character, before the
group starts. -/
def spacesThenDot (sp r : List Char) : Option (List Char) :=
  match sp with
  | [] => none
  | _ :: rest =>
    match spacesThenDot rest r with
    | some g => some g
    | none => dotPlus (rest ++ r)

/-- One keyword alternative of a secondary purpose pattern at a position. -/
def secondaryKw (k : List Char) (cs : List Char) : Option (List Char) :=
  if startsWithCI k cs then
    let rest := cs.drop k.length
    let sp := rest.takeWhile isSpaceChar
    spacesThenDot sp (rest.drop sp.length)
  else none

/-- A secondary purpose pattern at a position: the keyword alternatives in
source order, each followed by whitespace and the captured group. -/
def secondaryAt (ks : List (List Char)) (cs : List Char) : Option (List Char) :=
  ks.foldr (fun k acc => secondaryKw k cs <|> acc) none

/-- A JavaScript value as it can reach the extractor: null, undefined, a
number, a boolean, some other non-string object, or a string. -/
inductive JSVal where
  | nullV
  | undefV
  | numV (q : ℚ)
  | boolV (b : Bool)
  | objV
  | strV (s : String)
deriving DecidableEq

/-- Whether a JavaScript value is a string, the typeof test of the source. -/
def JSVal.isString : JSVal → Bool
  | .strV _ => true
  | _ => false

/-- The record the extractor and the interpreter return. -/
structure LoanParse where
  amount : Option ℚ
  duration : Option ℚ
  purpose : Option String
  expected_income : ℚ
deriving DecidableEq, Repr

/-- The record returned on invalid input. -/
def nullParse : LoanParse := ⟨none, none, none, 0⟩

/-- The short-circuit or with a numeric default, as in a JS expression that
keeps a truthy number and otherwise takes the default. -/
def jsNumOr (v : Option ℚ) (d : ℚ) : ℚ :=
  match v with
  | some q => if q = 0 then d else q
  | none => d

/-- The ordered removal rules of the purpose derivation, exactly the
removePhrases array of the source: four case-insensitive boilerplate
phrases, then the amount, duration and income patterns. -/
def removePhrases : List (List Char → Option (List Char × List Char)) :=
  [literalCI "i need a loan for".data, literalCI "i want to borrow".data,
   literalCI "loan for".data, literalCI "borrow".data,
   amountAt, durationAt, incomeAt]

/-- The keyword lists of the two secondary purpose patterns. -/
def secondaryKws1 : List (List Char) := ["for".data, "to".data]

/-- Keywords of the second secondary purpose pattern. -/
def secondaryKws2 : List (List Char) :=
  ["start".data, "open".data, "build".data, "buy".data, "invest in".data]

/-- The fallback extractor parseLoanRequestFallback of Chatbot.js.  A
non-string or falsy input returns the null record.  Otherwise the amount,
duration and income patterns are matched against the text; note that the
source reads index 2 of the income match although the income regex has a
single capture group, so that entry is always undefined.  The purpose is the
text with the removal rules applied in order, trimmed, with a leading to or
for stripped; if that is empty, the secondary patterns are tried on the
original text.  The try block of the source cannot throw in this model, so
the catch branch that would set purpose to null is unreachable. -/
def parseLoanRequestFallback (input : JSVal) : LoanParse :=
  match input with
  | .strV text =>
    if text = "" then nullParse
    else
      let cs := text.data
      let amountMatch := jsMatch amountAt cs
      let amount : Option ℚ := (matchIndexTruthy amountMatch 1).map parseNumQ
      let durationMatch := jsMatch durationAt cs
      let duration : Option ℚ :=
        (matchIndexTruthy durationMatch 1).map (fun g => (digitsToNat g : ℚ))
      let incomeMatch := jsMatch incomeAt cs
      let expectedIncome : Option ℚ := (matchIndexTruthy incomeMatch 2).map parseNumQ
      let purposeRemoved := removePhrases.foldl (fun acc p => removeFirst p acc) cs
      let purposeStripped :=
        stripLeadCI "for".data (stripLeadCI "to".data (trimList purposeRemoved))
      let purposeFinal : String :=
        if purposeStripped.isEmpty then
          match scanFirst (secondaryAt secondaryKws1) cs with
          | some g => ⟨trimList g⟩
          | none =>
            match scanFirst (secondaryAt secondaryKws2) cs with
            | some g => ⟨trimList g⟩
            | none => ⟨purposeStripped⟩
        else ⟨purposeStripped⟩
      ⟨amount, duration, some purposeFinal, jsNumOr expectedIncome 0⟩
  | _ => nullParse

/-- The four loan fields as the language model can return them once its
content string has parsed as JSON.  Field values are restricted to the
expected types; an absent field is none. -/
structure LLMJson where
  amount : Option ℚ
  duration : Option ℚ
  purpose : Option String
  expected_income : Option ℚ
deriving DecidableEq

/-- The content string of a successful language-model response: either it
fails to parse as JSON, or it parses to a field record.  The JSON parsing
itself is a JS builtin applied to external data, so only its outcome is
modelled. -/
inductive LLMReply where
  | notJson (raw : String)
  | json (v : LLMJson)
deriving DecidableEq

/-- The possible outcomes of the language-model call as the source observes
them: the fetch rejects, the response has a non-success status, the response
body is not JSON, or a reply content string is obtained. -/
inductive OllamaOutcome where
  | transportError
  | badStatus (code : ℕ)
  | bodyNotJson
  | reply (r : LLMReply)
deriving DecidableEq

/-- Truthy-or-null coercion of a numeric field, as in the field defaulting of
the source (a falsy value, here zero or absent, becomes null). -/
def jsOrNullQ (v : Option ℚ) : Option ℚ :=
  match v with
  | some q => if q = 0 then none else some q
  | none => none

/-- Truthy-or-null coercion of a string field. -/
def jsOrNullS (v : Option String) : Option String :=
  match v with
  | some s => if s = "" then none else some s
  | none => none

/-- The interpreter parseLoanRequestWithOllama of Chatbot.js.  A transport
error, a non-success status and an unparseable body all reach a catch branch
that returns the fallback extractor on the same text; a content string that
does not parse as JSON does the same; a parsed object is returned with its
fields coerced through the truthy-or defaults, without any fallback. -/
def parseLoanRequestWithOllama (text : String) (outcome : OllamaOutcome) : LoanParse :=
  match outcome with
  | .transportError => parseLoanRequestFallback (.strV text)
  | .badStatus _ => parseLoanRequestFallback (.strV text)
  | .bodyNotJson => parseLoanRequestFallback (.strV text)
  | .reply (.notJson _) => parseLoanRequestFallback (.strV text)
  | .reply (.json p) =>
    ⟨jsOrNullQ p.amount, jsOrNullQ p.duration, jsOrNullS p.purpose,
      jsNumOr p.expected_income 0⟩

/-- The completeness test of handleSubmit: the request is submitted only when
amount, duration and purpose are all truthy (non-null, and not zero or the
empty string). -/
def loanDataComplete (r : LoanParse) : Bool :=
  (match r.amount with | some q => decide (q ≠ 0) | none => false) &&
    (match r.duration with | some q => decide (q ≠ 0) | none => false) &&
      (match r.purpose with | some s => decide (s ≠ "") | none => false)

/-- What handleSubmit does with an interpreted result: prompt the user for
clarification, or submit the request. -/
inductive SubmitOutcome where
  | clarify
  | proceed
deriving DecidableEq

/-- The submission gate of handleSubmit: on an incomplete result the bot
posts a clarification prompt and returns without calling onLoanRequest. -/
def handleSubmitGate (r : LoanParse) : SubmitOutcome :=
  if loanDataComplete r then .proceed else .clarify

/-- The offer sub-record of a bank offer. -/
structure Offer where
  amount_approved : ℚ
  interest_rate : ℚ
  carbon_adjusted_rate : ℚ
  repayment_period : ℕ
  esg_summary : String
deriving DecidableEq, Repr

/-- One entry of the offers list. -/
structure BankOffer where
  bank_id : String
  bank_name : String
  offer : Offer
deriving DecidableEq, Repr

/-- The sort relation of the best-offers comparator of App.js: an offer comes
first when its approved amount is strictly greater, or the amounts are equal
and its interest rate is not greater. -/
def rankRel (a b : BankOffer) : Prop :=
  b.offer.amount_approved < a.offer.amount_approved ∨
    (a.offer.amount_approved = b.offer.amount_approved ∧
      a.offer.interest_rate ≤ b.offer.interest_rate)

instance : DecidableRel rankRel := fun a b => by
  unfold rankRel; infer_instance

instance : IsTotal BankOffer rankRel :=
  ⟨fun a b => by
    unfold rankRel
    rcases lt_trichotomy a.offer.amount_approved b.offer.amount_approved with h | h | h
    · exact Or.inr (Or.inl h)
    · rcases le_total a.offer.interest_rate b.offer.interest_rate with h2 | h2
      · exact Or.inl (Or.inr ⟨h, h2⟩)
      · exact Or.inr (Or.inr ⟨h.symm, h2⟩)
    · exact Or.inl (Or.inl h)⟩

instance : IsTrans BankOffer rankRel :=
  ⟨fun a b c hab hbc => by
    unfold rankRel at *
    rcases hab with h | ⟨h1, h2⟩ <;> rcases hbc with h' | ⟨h1', h2'⟩
    · exact Or.inl (h'.trans h)
    · exact Or.inl (h1' ▸ h)
    · exact Or.inl (h1 ▸ h')
    · exact Or.inr ⟨h1.trans h1', h2.trans h2'⟩⟩

/-- The best-offers ranking of App.js: filter out offers whose approved
amount is not positive, sort by the comparator (a stable comparison sort,
modelled by insertion sort), keep the first three, and annotate each entry
with whether its bank is the selected bank. -/
def rankOffers (offers : List BankOffer) (selectedBank : String) :
    List (BankOffer × Bool) :=
  ((((offers.filter (fun o => decide (0 < o.offer.amount_approved))).insertionSort
      rankRel).take 3).map (fun o => (o, o.bank_id == selectedBank)))

/-- The body sent to the negotiation endpoint by handleNegotiate. -/
structure NegotiationRequest where
  bank_id : String
  current_offer : Offer
  target_rate : ℚ
deriving DecidableEq

/-- The request handleNegotiate builds for an offer entry: the target rate is
the current interest rate minus the fixed 0.005 ask. -/
def negotiationRequest (offerData : BankOffer) : NegotiationRequest :=
  { bank_id := offerData.bank_id
    current_offer := offerData.offer
    target_rate := offerData.offer.interest_rate - 0.005 }

/-- The body of a successful negotiation response. -/
structure NegotiationResponse where
  agreed : Bool
  updated_offer : Offer
  new_rate : ℚ
  reason : String
deriving DecidableEq

/-- The outcome of the negotiation fetch as the source observes it. -/
inductive FetchOutcome where
  | transportError
  | badStatus
  | ok (r : NegotiationResponse)
deriving DecidableEq

/-- The four distinct notification banners handleNegotiate can raise, with
the data each message carries in the source. -/
inductive Notice where
  | negotiationSuccess (new_rate : ℚ)
  | negotiationRejected (reason : String)
  | negotiationRequestFailed
  | negotiationError
deriving DecidableEq

/-- In-place replacement of the offer sub-record at an index, the effect of
assigning to the offer field of the copied array element. -/
def setOfferAt : List BankOffer → ℕ → Offer → List BankOffer
  | [], _, _ => []
  | b :: rest, 0, o => { b with offer := o } :: rest
  | b :: rest, n + 1, o => b :: setOfferAt rest n o

/-- The negotiation handler handleNegotiate of OffersGrid.js, given the
current offers, the index being negotiated and the fetch outcome.  On an
agreed response the offer at the index is replaced by the updated offer of
the response and a success banner reports the new rate; assigning into a
missing index would throw inside the try block and land in the generic error
banner without touching the list.  On a non-agreed response the rejection
banner carries the remote reason and the list is unchanged; a non-success
status or a transport error each raise their own banner, also leaving the
list unchanged. -/
def handleNegotiate (offers : List BankOffer) (index : ℕ) (outcome : FetchOutcome) :
    List BankOffer × Notice :=
  match outcome with
  | .ok result =>
    if result.agreed then
      if index < offers.length then
        (setOfferAt offers index result.updated_offer,
          .negotiationSuccess result.new_rate)
      else (offers, .negotiationError)
    else (offers, .negotiationRejected result.reason)
  | .badStatus => (offers, .negotiationRequestFailed)
  | .transportError => (offers, .negotiationError)

/-- The concurrency-relevant state of OffersGrid: the single scalar
negotiating flag of the source, plus the multiset (as a list) of offer
indices whose negotiation calls are currently in flight. -/
structure NegoState where
  negotiating : Option ℕ
  inflight : List ℕ
deriving DecidableEq

/-- Events of the negotiation state machine. -/
inductive NegoLabel where
  | start (i : ℕ)
  | finish (i : ℕ)
deriving DecidableEq

/-- The labelled transition relation of the negotiation UI.  A negotiation on
index i can start whenever the flag does not currently equal i (the only
guard the source has: the button of an entry is disabled exactly when the
scalar flag equals its index); starting sets the flag to i and adds an
in-flight call.  A finishing call removes itself and resets the flag to
null, as the handler does unconditionally at its end. -/
inductive NegoStep : NegoState → NegoLabel → NegoState → Prop where
  | start (s : NegoState) (i : ℕ) (h : s.negotiating ≠ some i) :
      NegoStep s (.start i) ⟨some i, i :: s.inflight⟩
  | finish (s : NegoState) (i : ℕ) (h : i ∈ s.inflight) :
      NegoStep s (.finish i) ⟨none, s.inflight.erase i⟩

/-- States reachable from the initial idle state. -/
inductive NegoReach : NegoState → Prop where
  | init : NegoReach ⟨none, []⟩
  | step {s t : NegoState} {l : NegoLabel} : NegoReach s → NegoStep s l t → NegoReach t


/-- The removal rules of the purpose derivation as the specification lists
them, instantiated with the fixed order the source uses. -/
def specPurposeRules : List (List Char → Option (List Char × List Char)) :=
  [literalCI "i need a loan for".data, literalCI "i want to borrow".data,
   literalCI "loan for".data, literalCI "borrow".data,
   amountAt, durationAt, incomeAt]

/-- The purpose derivation as the specification describes it, amended on one
point: when neither secondary pattern matches, the result is the empty
string (the stripped remainder, which is empty in that branch) rather than
null. -/
def specPurpose (text : String) : String :=
  let removed := specPurposeRules.foldl (fun acc p => removeFirst p acc) text.data
  let stripped := stripLeadCI "for".data (stripLeadCI "to".data (trimList removed))
  if stripped.isEmpty then
    match scanFirst (secondaryAt secondaryKws1) text.data with
    | some g => ⟨trimList g⟩
    | none =>
      match scanFirst (secondaryAt secondaryKws2) text.data with
      | some g => ⟨trimList g⟩
      | none => ""
  else ⟨stripped⟩

/-- The synthetic round-trip input of the C1 scenario. -/
def c1Input : String :=
  "I need a loan for $250000 for 24 months to open a bakery with expected income of $80000"

/-- Incomplete-but-non-null extractor input for the C8 scenario. -/
def c8Input : String := "I need a loan for $0 for 24 months to open a bakery"

/-- Ranking scenario offers of C4, with the rates 0.08, 0.06 and 0.05 of the
scenario written as explicit rationals so that concrete goals evaluate. -/
def demoA : BankOffer := ⟨"A", "Bank A", ⟨100000, mkRat 8 100, mkRat 8 100, 12, ""⟩⟩

/-- Second ranking scenario offer, equal amount and a lower rate. -/
def demoB : BankOffer := ⟨"B", "Bank B", ⟨100000, mkRat 6 100, mkRat 6 100, 12, ""⟩⟩

/-- Third ranking scenario offer, rejected with a zero approved amount. -/
def demoC : BankOffer := ⟨"C", "Bank C", ⟨0, mkRat 5 100, mkRat 5 100, 12, ""⟩⟩

/-- An offer at the 0.07 rate of the negotiation scenarios. -/
def offer07 : Offer := ⟨50000, mkRat 7 100, mkRat 7 100, 12, ""⟩

/-- The bank entry holding offer07. -/
def bank07 : BankOffer := ⟨"gb", "Green Bank", offer07⟩

/-- The offer of an agreed response at the requested 0.065 target rate. -/
def offer065 : Offer := ⟨50000, mkRat 65 1000, mkRat 65 1000, 12, ""⟩

/-- An agreed negotiation response at the target rate. -/
def resp065 : NegotiationResponse := ⟨true, offer065, mkRat 65 1000, ""⟩

/-- An offer at rate 0.08, higher than offer07, for the C3 counterexample. -/
def offerUp : Offer := ⟨50000, mkRat 8 100, mkRat 8 100, 12, ""⟩

/-- An agreed negotiation response carrying a higher rate than before. -/
def respUp : NegotiationResponse := ⟨true, offerUp, mkRat 8 100, ""⟩

/-- A rejecting negotiation response with a remote reason. -/
def respReject : NegotiationResponse := ⟨false, offerUp, mkRat 8 100, "rate floor reached"⟩

/-- Index access after an in-place offer replacement. -/
theorem setOfferAt_get? (l : List BankOffer) (i : ℕ) (o : Offer) :
    (setOfferAt l i o).get? i = (l.get? i).map (fun b => { b with offer := o }) := by
  induction l generalizing i with
  | nil => cases i <;> rfl
  | cons b rest ih =>
    cases i with
    | zero => rfl
    | succ n => simpa [setOfferAt] using ih n

/-- The two purpose pipelines differ only in the value of the branch where
the stripped remainder is empty and no secondary pattern matches, and there
the remainder is the empty string. -/
theorem purpose_branch_eq (stripped : List Char) (o1 o2 : Option (List Char)) :
    (if stripped.isEmpty then
      match o1 with
      | some g => (⟨trimList g⟩ : String)
      | none =>
        match o2 with
        | some g => ⟨trimList g⟩
        | none => ⟨stripped⟩
    else ⟨stripped⟩) =
    (if stripped.isEmpty then
      match o1 with
      | some g => (⟨trimList g⟩ : String)
      | none =>
        match o2 with
        | some g => ⟨trimList g⟩
        | none => ""
    else ⟨stripped⟩) := by
  by_cases he : stripped.isEmpty
  · simp only [if_pos he]
    cases o1 with
    | some g => rfl
    | none =>
      cases o2 with
      | some g => rfl
      | none => rw [List.isEmpty_iff.mp he]
  · simp only [if_neg he]

/-- C1: on the synthetic round-trip input the fallback extractor recovers the
amount and the duration and a non-empty purpose containing the phrase, but
returns expected_income 0 instead of 80000: the source reads index 2 of the
income match although the income regex captures the numeral in group 1, so
the read is always undefined.  The conjuncts exhibit the match that group 1
holds and the undefined index the source reads. -/
theorem c1_fallback_income_always_zero :
    parseLoanRequestFallback (.strV c1Input) =
      ⟨some 250000, some 24, some "s to open a bakery with expected", 0⟩ ∧
    matchIndexTruthy (jsMatch incomeAt c1Input.data) 1 = some "80000".data ∧
    matchIndexTruthy (jsMatch incomeAt c1Input.data) 2 = none ∧
    (0 : ℚ) ≠ 80000 := by decide

/-- C2 counterexample: a language-model reply that parses as JSON but misses
every required field is not replaced by the fallback extraction; the claim
that every missing-required-fields failure returns exactly the fallback
result is false at this input. -/
theorem c2_missing_fields_not_fallback :
    parseLoanRequestWithOllama "I need $100 for 12 months to shop"
        (.reply (.json ⟨none, none, none, none⟩)) ≠
      parseLoanRequestFallback (.strV "I need $100 for 12 months to shop") := by
  decide

/-- C2 amended: on transport failure, a non-success status, an unparseable
response body, or a content string that does not parse as JSON, the
interpreter returns exactly the fallback extraction of the same text; on a
parsed reply it returns the truthy-coerced fields without falling back. -/
theorem c2_fallback_on_failure (text raw : String) (p : LLMJson) :
    parseLoanRequestWithOllama text .transportError =
      parseLoanRequestFallback (.strV text) ∧
    (∀ code, parseLoanRequestWithOllama text (.badStatus code) =
      parseLoanRequestFallback (.strV text)) ∧
    parseLoanRequestWithOllama text .bodyNotJson =
      parseLoanRequestFallback (.strV text) ∧
    parseLoanRequestWithOllama text (.reply (.notJson raw)) =
      parseLoanRequestFallback (.strV text) ∧
    parseLoanRequestWithOllama text (.reply (.json p)) =
      ⟨jsOrNullQ p.amount, jsOrNullQ p.duration, jsOrNullS p.purpose,
        jsNumOr p.expected_income 0⟩ :=
  ⟨rfl, fun _ => rfl, rfl, rfl, rfl⟩

/-- C3 counterexample: an agreed response whose updated offer carries a
higher rate is stored as-is, so after an agreed negotiation the stored rate
is not strictly below the pre-negotiation rate. -/
theorem c3_agreed_can_raise_rate :
    (handleNegotiate [bank07] 0 (.ok respUp)).1 = [⟨"gb", "Green Bank", offerUp⟩] ∧
    ¬ ((⟨"gb", "Green Bank", offerUp⟩ : BankOffer).offer.interest_rate <
        bank07.offer.interest_rate) := by decide

/-- C3 amended: on every agreed response at a valid index the stored offer
becomes the updated offer of the response verbatim, so the stored rate is
strictly below the pre-negotiation rate exactly when the response carries a
rate below it; nothing in the handler enforces a decrease. -/
theorem c3_agreed_stores_response_rate (offers : List BankOffer) (index : ℕ)
    (r : NegotiationResponse) (b : BankOffer)
    (hb : offers.get? index = some b) (hagree : r.agreed = true) :
    ((handleNegotiate offers index (.ok r)).1).get? index =
      some { b with offer := r.updated_offer } ∧
    (∀ b', ((handleNegotiate offers index (.ok r)).1).get? index = some b' →
      (b'.offer.interest_rate < b.offer.interest_rate ↔
        r.updated_offer.interest_rate < b.offer.interest_rate)) := by
  have hlen : index < offers.length := by
    rcases List.get?_eq_some.mp hb with ⟨h, _⟩
    exact h
  have h1 : ((handleNegotiate offers index (.ok r)).1).get? index =
      some { b with offer := r.updated_offer } := by
    simp only [handleNegotiate, hagree, if_true, if_pos hlen]
    rw [setOfferAt_get?, hb]
    rfl
  refine ⟨h1, fun b' hb' => ?_⟩
  rw [h1] at hb'
  cases hb'
  exact Iff.rfl

/-- C3 witness: the amended theorem at the concrete seven percent offer and
the agreed response at the target rate, discharging both hypotheses. -/
theorem c3_agreed_stores_response_rate_witness :
    ((handleNegotiate [bank07] 0 (.ok resp065)).1).get? 0 =
      some { bank07 with offer := resp065.updated_offer } ∧
    (∀ b', ((handleNegotiate [bank07] 0 (.ok resp065)).1).get? 0 = some b' →
      (b'.offer.interest_rate < bank07.offer.interest_rate ↔
        resp065.updated_offer.interest_rate < bank07.offer.interest_rate)) :=
  c3_agreed_stores_response_rate [bank07] 0 resp065 bank07 rfl rfl

/-- C4: the ranking keeps at most three entries, never an entry with a zero
approved amount, orders adjacent entries by strictly greater amount or equal
amount with a not-greater rate, marks an entry recommended exactly when its
bank is the selected bank, and ranks the concrete scenario offers to the B
then A entries. -/
theorem c4_rank_properties (offers : List BankOffer) (sel : String) :
    (rankOffers offers sel).length ≤ 3 ∧
    (∀ e ∈ rankOffers offers sel, e.1.offer.amount_approved ≠ 0) ∧
    List.Chain' (fun a b : BankOffer × Bool => rankRel a.1 b.1)
      (rankOffers offers sel) ∧
    (∀ e ∈ rankOffers offers sel, e.2 = (e.1.bank_id == sel)) ∧
    rankOffers [demoA, demoB, demoC] "B" = [(demoB, true), (demoA, false)] := by
  refine ⟨?_, ?_, ?_, ?_, by decide⟩
  · simp only [rankOffers, List.length_map]
    exact List.length_take_le 3 _
  · intro e he
    simp only [rankOffers, List.mem_map] at he
    rcases he with ⟨o, ho, rfl⟩
    have h1 := List.take_subset 3 _ ho
    have h2 := (List.perm_insertionSort rankRel _).mem_iff.mp h1
    have h3 := List.of_mem_filter h2
    simp only [decide_eq_true_eq] at h3
    exact ne_of_gt h3
  · have hs := List.sorted_insertionSort rankRel
      (offers.filter (fun o => decide (0 < o.offer.amount_approved)))
    have ht : List.Pairwise rankRel
        (((offers.filter (fun o => decide (0 < o.offer.amount_approved))).insertionSort
          rankRel).take 3) :=
      List.Pairwise.sublist (List.take_sublist 3 _) hs
    have hc := ht.chain'
    rw [rankOffers, List.chain'_map]
    exact hc
  · intro e he
    simp only [rankOffers, List.mem_map] at he
    rcases he with ⟨o, _, rfl⟩
    rfl

/-- C4 witness: the ranking properties applied at the concrete scenario,
discharging the membership hypotheses at the B entry. -/
theorem c4_rank_properties_witness :
    (demoB, true).1.offer.amount_approved ≠ 0 ∧
    (demoB, true).2 = ((demoB, true).1.bank_id == "B") := by
  have h := c4_rank_properties [demoA, demoB, demoC] "B"
  exact ⟨h.2.1 (demoB, true) (by decide), h.2.2.2.1 (demoB, true) (by decide)⟩

/-- C5: a rejecting response leaves the offers list unchanged and reports the
remote reason; a non-success status and a transport error also leave the
list unchanged and raise banners distinct from the rejection banner and from
each other. -/
theorem c5_failure_leaves_offers_unchanged (offers : List BankOffer) (index : ℕ)
    (r : NegotiationResponse) (h : r.agreed = false) :
    handleNegotiate offers index (.ok r) = (offers, .negotiationRejected r.reason) ∧
    handleNegotiate offers index .badStatus = (offers, .negotiationRequestFailed) ∧
    handleNegotiate offers index .transportError = (offers, .negotiationError) ∧
    Notice.negotiationRejected r.reason ≠ Notice.negotiationRequestFailed ∧
    Notice.negotiationRejected r.reason ≠ Notice.negotiationError ∧
    (Notice.negotiationRequestFailed : Notice) ≠ Notice.negotiationError := by
  refine ⟨by simp [handleNegotiate, h], rfl, rfl, ?_, ?_, ?_⟩ <;>
    (intro hc; exact Notice.noConfusion hc)

/-- C5 witness: the failure cases at a concrete rejecting response on the
singleton offers list. -/
theorem c5_failure_leaves_offers_unchanged_witness :
    handleNegotiate [bank07] 0 (.ok respReject) =
      ([bank07], .negotiationRejected respReject.reason) ∧
    handleNegotiate [bank07] 0 .badStatus = ([bank07], .negotiationRequestFailed) ∧
    handleNegotiate [bank07] 0 .transportError = ([bank07], .negotiationError) ∧
    Notice.negotiationRejected respReject.reason ≠ Notice.negotiationRequestFailed ∧
    Notice.negotiationRejected respReject.reason ≠ Notice.negotiationError ∧
    (Notice.negotiationRequestFailed : Notice) ≠ Notice.negotiationError :=
  c5_failure_leaves_offers_unchanged [bank07] 0 respReject rfl

/-- C6: every negotiation attempt asks for the current rate minus 0.005; the
seven percent offer asks for 0.065, and an agreed response whose updated
offer carries rate 0.065 leaves that rate stored. -/
theorem c6_target_rate :
    (∀ b : BankOffer,
      (negotiationRequest b).target_rate = b.offer.interest_rate - 0.005) ∧
    (negotiationRequest bank07).target_rate = 0.065 ∧
    (handleNegotiate [bank07] 0 (.ok resp065)).1 = [⟨"gb", "Green Bank", offer065⟩] ∧
    offer065.interest_rate = 0.065 := by
  refine ⟨fun b => rfl, ?_, by decide, ?_⟩
  · show bank07.offer.interest_rate - 0.005 = 0.065
    norm_num [bank07, offer07, Rat.mkRat_eq_div]
  · show (mkRat 65 1000 : ℚ) = 0.065
    norm_num [Rat.mkRat_eq_div]

/-- C7 counterexample: on an input where every removal empties the text and
no secondary pattern matches, the purpose is the empty string, not null as
the claim states. -/
theorem c7_no_match_purpose_empty_not_null :
    (parseLoanRequestFallback (.strV "$100")).purpose = some "" ∧
    (parseLoanRequestFallback (.strV "$100")).purpose ≠ none := by
  constructor <;> decide

/-- C7 amended: for every non-empty string input, the purpose returned by
the fallback extractor is exactly the specification-side derivation — the
ordered first-match removals, the trim, the leading to or for strip, then
the secondary patterns — with the empty string, not null, when nothing
matches. -/
theorem c7_purpose_characterization (s : String) (h : s ≠ "") :
    (parseLoanRequestFallback (.strV s)).purpose = some (specPurpose s) := by
  simp only [parseLoanRequestFallback, specPurpose, if_neg h]
  exact congrArg some (purpose_branch_eq _ _ _)

/-- C7 witness: the amended characterization at the concrete no-match
input. -/
theorem c7_purpose_characterization_witness :
    ("$100" : String) ≠ "" ∧
    (parseLoanRequestFallback (.strV "$100")).purpose = some (specPurpose "$100") :=
  ⟨by decide, c7_purpose_characterization "$100" (by decide)⟩

/-- C8 counterexample: an extracted result with amount zero has no null
field among amount, duration and purpose, yet the submission gate blocks it,
so the gate is not determined by nullness alone. -/
theorem c8_zero_amount_blocks_submission :
    (parseLoanRequestFallback (.strV c8Input)).amount = some 0 ∧
    (parseLoanRequestFallback (.strV c8Input)).duration = some 24 ∧
    (parseLoanRequestFallback (.strV c8Input)).purpose = some "s to open a bakery" ∧
    loanDataComplete (parseLoanRequestFallback (.strV c8Input)) = false ∧
    handleSubmitGate (parseLoanRequestFallback (.strV c8Input)) = .clarify := by
  decide

/-- C8 amended: the gate passes exactly when amount, duration and purpose
are all present and truthy (non-zero, non-empty), it never depends on
expected_income, and a failing gate routes to the clarification prompt
instead of submission. -/
theorem c8_gate_truthy_characterization (r : LoanParse) :
    (loanDataComplete r = true ↔
      ((∃ a, r.amount = some a ∧ a ≠ 0) ∧ (∃ d, r.duration = some d ∧ d ≠ 0) ∧
        (∃ p, r.purpose = some p ∧ p ≠ ""))) ∧
    (∀ q : ℚ, loanDataComplete { r with expected_income := q } = loanDataComplete r) ∧
    (handleSubmitGate r = .clarify ↔ loanDataComplete r = false) := by
  refine ⟨?_, fun _ => rfl, ?_⟩
  · rcases r with ⟨a, d, p, q⟩
    cases a <;> cases d <;> cases p <;> simp [loanDataComplete, and_assoc]
  · cases hcb : loanDataComplete r <;> simp [handleSubmitGate, hcb]

/-- C8 witness: the amended characterization at a concrete complete
result. -/
theorem c8_gate_truthy_characterization_witness :
    (loanDataComplete ⟨some 100, some 12, some "shop", 0⟩ = true ↔
      ((∃ a, (⟨some 100, some 12, some "shop", 0⟩ : LoanParse).amount = some a ∧ a ≠ 0) ∧
        (∃ d, (⟨some 100, some 12, some "shop", 0⟩ : LoanParse).duration = some d ∧ d ≠ 0) ∧
        (∃ p, (⟨some 100, some 12, some "shop", 0⟩ : LoanParse).purpose = some p ∧ p ≠ ""))) ∧
    (∀ q : ℚ, loanDataComplete
        { (⟨some 100, some 12, some "shop", 0⟩ : LoanParse) with expected_income := q } =
      loanDataComplete ⟨some 100, some 12, some "shop", 0⟩) ∧
    (handleSubmitGate ⟨some 100, some 12, some "shop", 0⟩ = .clarify ↔
      loanDataComplete ⟨some 100, some 12, some "shop", 0⟩ = false) :=
  c8_gate_truthy_characterization ⟨some 100, some 12, some "shop", 0⟩

/-- C9 counterexample: the busy flag is a single scalar, so after starting a
negotiation on index 0, starting one on index 1 overwrites the flag and a
finished call resets it; a state with two in-flight negotiations on index 0
is then reachable, violating the per-index at-most-one guarantee. -/
theorem c9_double_inflight_reachable :
    NegoReach ⟨some 0, [0, 0]⟩ ∧ ¬ (List.count 0 [0, 0] ≤ 1) := by
  constructor
  · have h1 : NegoStep ⟨none, []⟩ (.start 0) ⟨some 0, [0]⟩ :=
      .start ⟨none, []⟩ 0 (by decide)
    have h2 : NegoStep ⟨some 0, [0]⟩ (.start 1) ⟨some 1, [1, 0]⟩ :=
      .start ⟨some 0, [0]⟩ 1 (by decide)
    have h3 : NegoStep ⟨some 1, [1, 0]⟩ (.finish 1) ⟨none, [0]⟩ :=
      .finish ⟨some 1, [1, 0]⟩ 1 (by decide)
    have h4 : NegoStep ⟨none, [0]⟩ (.start 0) ⟨some 0, [0, 0]⟩ :=
      .start ⟨none, [0]⟩ 0 (by decide)
    exact .step (.step (.step (.step .init h1) h2) h3) h4
  · decide

/-- C9 amended: immediately after a negotiation starts on an index, a second
start on the same index is refused, while a start on any other index is
accepted; the guard is only the single scalar flag, so it protects an index
only until another event overwrites or resets the flag. -/
theorem c9_flag_guard (s : NegoState) (i : ℕ) (s' : NegoState)
    (h : NegoStep s (.start i) s') :
    (¬ ∃ t, NegoStep s' (.start i) t) ∧
    (∀ j, j ≠ i → ∃ t, NegoStep s' (.start j) t) := by
  cases h with
  | start _ hne =>
    refine ⟨?_, ?_⟩
    · rintro ⟨t, ht⟩
      cases ht with
      | start _ h2 => exact h2 rfl
    · intro j hji
      exact ⟨_, .start _ j (by
        intro hc
        exact hji (Option.some.inj hc).symm)⟩

/-- C9 witness: the guard theorem applied right after a concrete start on
index 0, refusing a second start on 0 and allowing one on 1. -/
theorem c9_flag_guard_witness :
    (¬ ∃ t, NegoStep ⟨some 0, [0]⟩ (.start 0) t) ∧
    (∃ t, NegoStep ⟨some 0, [0]⟩ (.start 1) t) := by
  have h0 : NegoStep ⟨none, []⟩ (.start 0) ⟨some 0, [0]⟩ :=
    .start ⟨none, []⟩ 0 (by decide)
  have h := c9_flag_guard ⟨none, []⟩ 0 ⟨some 0, [0]⟩ h0
  exact ⟨h.1, h.2 1 (by decide)⟩

/-- C10: a null, undefined or non-string input makes the extractor return
the all-null record with income zero, through the explicit input-validation
guard of the source. -/
theorem c10_nonstring_input_null_record (v : JSVal) (h : v.isString = false) :
    parseLoanRequestFallback v = nullParse := by
  cases v with
  | strV s => simp [JSVal.isString] at h
  | nullV => rfl
  | undefV => rfl
  | numV q => rfl
  | boolV b => rfl
  | objV => rfl

/-- C10 witness: the guard at a concrete numeric input. -/
theorem c10_nonstring_input_null_record_witness :
    (JSVal.numV 5).isString = false ∧
    parseLoanRequestFallback (.numV 5) = nullParse :=
  ⟨rfl, c10_nonstring_input_null_record (.numV 5) rfl⟩

end WFAP
